import Mathlib

/-
Verification of the TIFF metadata-navigation core (src/common/tiff.rs).

Shallow embedding conventions:
* The seekable byte stream is a `List Nat` of bytes (each < 256); a seek is
  just passing an absolute position, and a read past the end is the only
  stream failure (a short read), mirroring the spec's stream contract.
* Rust `u8/u16/u32/u64` values are `Nat`; where the source performs `u32`
  arithmetic that can overflow, the model reduces modulo 2^32 (release-mode
  wrapping semantics).  Signed integers are `Int` obtained by two's-complement
  reinterpretation.  `f32`/`f64` values are represented by their IEEE bit
  patterns as `Nat` (the source only ever transmutes bits, so this is lossless
  for everything modelled here).
* Fallible operations return `Option`/`Except TiffError`.
-/

set_option autoImplicit false

namespace ImmetaTiff

/-- Byte order selected by the TIFF byte-order mark (`utils::ByteOrder`). -/
inductive ByteOrder where
  | Little
  | Big
deriving DecidableEq, Repr

/-- Modelled from the spec: error taxonomy of the `types` module (not under
`src/`): `UnexpectedEndOfStream` for any short read and `InvalidFormat` for
structural violations, each annotated with a message. -/
inductive TiffError where
  | UnexpectedEndOfStream (msg : String)
  | InvalidFormat (msg : String)
deriving DecidableEq, Repr

/-- Modelled from the spec: read one byte at an absolute position
(stream contract of §6; `None` is a short read). -/
def readU8 (data : List Nat) (pos : Nat) : Option Nat :=
  data[pos]?

/-- Modelled from the spec: `read_u16` of `utils::ByteOrderReadExt` (not under
`src/`): two bytes at `pos` combined under the given byte order. -/
def readU16 (bo : ByteOrder) (data : List Nat) (pos : Nat) : Option Nat :=
  match data[pos]?, data[pos + 1]? with
  | some b0, some b1 =>
    some (match bo with
      | .Little => b0 + 256 * b1
      | .Big => 256 * b0 + b1)
  | _, _ => none

/-- Modelled from the spec: `read_u32` of `utils::ByteOrderReadExt`. -/
def readU32 (bo : ByteOrder) (data : List Nat) (pos : Nat) : Option Nat :=
  match data[pos]?, data[pos + 1]?, data[pos + 2]?, data[pos + 3]? with
  | some b0, some b1, some b2, some b3 =>
    some (match bo with
      | .Little => b0 + 256 * b1 + 65536 * b2 + 16777216 * b3
      | .Big => 16777216 * b0 + 65536 * b1 + 256 * b2 + b3)
  | _, _, _, _ => none

/-- Modelled from the spec: `read_f64` reads 8 bytes under the byte order; we
keep the IEEE bit pattern as a `Nat`. -/
def readU64 (bo : ByteOrder) (data : List Nat) (pos : Nat) : Option Nat :=
  match readU32 bo data pos, readU32 bo data (pos + 4) with
  | some lo, some hi =>
    some (match bo with
      | .Little => lo + 4294967296 * hi
      | .Big => 4294967296 * lo + hi)
  | _, _ => none

/-- Two's-complement reinterpretation of a `w`-bit unsigned value as `Int`. -/
def toSigned (w : Nat) (v : Nat) : Int :=
  if v < 2 ^ (w - 1) then (v : Int) else (v : Int) - 2 ^ w

/-- Shared lazy reader state (`LazyIfds`): the document byte order and the
mutable "next IFD offset" cell. -/
structure LazyIfds where
  byte_order : ByteOrder
  next_ifd_offset : Nat
deriving DecidableEq, Repr

/-- `TiffReader::ifds`: validate the byte-order mark and the magic number 42,
then return the shared lazy state with the chain cursor at stream position 4. -/
def TiffReader.ifds (data : List Nat) : Except TiffError LazyIfds :=
  match data[0]?, data[1]? with
  | some b0, some b1 =>
    if b0 = 0x49 ∧ b1 = 0x49 then
      match readU16 .Little data 2 with
      | none => .error (.UnexpectedEndOfStream "when reading TIFF magic number")
      | some m =>
        if m = 42 then .ok ⟨.Little, 4⟩
        else .error (.InvalidFormat "invalid TIFF magic number")
    else if b0 = 0x4D ∧ b1 = 0x4D then
      match readU16 .Big data 2 with
      | none => .error (.UnexpectedEndOfStream "when reading TIFF magic number")
      | some m =>
        if m = 42 then .ok ⟨.Big, 4⟩
        else .error (.InvalidFormat "invalid TIFF magic number")
    else .error (.InvalidFormat "invalid TIFF BOM")
  | _, _ => .error (.UnexpectedEndOfStream "while reading byte order mark")

/-- One IFD as yielded by the chain walker: the absolute offset of its
entry-count field and the entry count read there. -/
structure Ifd where
  ifd_offset : Nat
  total_entries : Nat
deriving DecidableEq, Repr

/-- `Ifds::read_ifd`: one pull of the IFD chain walker.  Returns the yielded
IFD (or `none` at chain end) together with the updated shared state; the state
is returned unchanged when nothing was yielded or (at the call site
`Ifds.next`) when an error occurred. -/
def Ifds.read_ifd (data : List Nat) (st : LazyIfds) :
    Except TiffError (Option Ifd × LazyIfds) :=
  let next_ifd_offset := st.next_ifd_offset
  if next_ifd_offset = 0 then
    .ok (none, st)
  else
    match readU16 st.byte_order data next_ifd_offset with
    | none => .error (.UnexpectedEndOfStream "when reading number of entries in an IFD")
    | some current_ifd_size =>
      if current_ifd_size = 0 then
        .error (.InvalidFormat "number of entries in an IFD is zero")
      else
        match readU16 st.byte_order data (next_ifd_offset + 2 + current_ifd_size * 12) with
        | none => .error (.UnexpectedEndOfStream "when reading the next IFD offset")
        | some nxt =>
          .ok (some ⟨next_ifd_offset, current_ifd_size⟩,
               ⟨st.byte_order, nxt⟩)

/-- `<Ifds as Iterator>::next`: a pull of the IFD iterator.  On an error the
shared `next_ifd_offset` cell was not written, so the state is unchanged. -/
def Ifds.next (data : List Nat) (st : LazyIfds) :
    Option (Except TiffError Ifd) × LazyIfds :=
  match Ifds.read_ifd data st with
  | .ok (none, st') => (none, st')
  | .ok (some ifd, st') => (some (.ok ifd), st')
  | .error e => (some (.error e), st)

/-- TIFF IFD entry type (`EntryType`). -/
inductive EntryType where
  | Byte
  | Ascii
  | Short
  | Long
  | Rational
  | SignedByte
  | Undefined
  | SignedShort
  | SignedLong
  | SignedRational
  | Float
  | Double
  | Unknown (code : Nat)
deriving DecidableEq, Repr

/-- `impl From<u16> for EntryType`: codes 1–12 map to the known variants,
anything else becomes `Unknown(code)`. -/
def EntryType.fromU16 (n : Nat) : EntryType :=
  match n with
  | 1 => .Byte
  | 2 => .Ascii
  | 3 => .Short
  | 4 => .Long
  | 5 => .Rational
  | 6 => .SignedByte
  | 7 => .Undefined
  | 8 => .SignedShort
  | 9 => .SignedLong
  | 10 => .SignedRational
  | 11 => .Float
  | 12 => .Double
  | n => .Unknown n

/-- `EntryType::size`: declared per-element byte size; `Unknown` has none. -/
def EntryType.size : EntryType → Option Nat
  | .Byte => some 1
  | .Ascii => some 1
  | .Short => some 2
  | .Long => some 4
  | .Rational => some 8
  | .SignedByte => some 1
  | .Undefined => some 1
  | .SignedShort => some 2
  | .SignedLong => some 4
  | .SignedRational => some 4
  | .Float => some 4
  | .Double => some 8
  | .Unknown _ => none

/-- A single directory entry (`Entry`): tag, decoded entry type, element
count, and the 4-byte value/offset field (named `offset` as in the source). -/
structure Entry where
  tag : Nat
  entry_type : EntryType
  count : Nat
  offset : Nat
deriving DecidableEq, Repr

/-- `Ifd::read_entry`: read the directory entry at index `current_entry` of
the IFD starting at `ifd_offset`: seek to `ifd_offset + 2 + current_entry*12`
and read tag (u16), type code (u16), count (u32), value field (u32) in order
under the document byte order. -/
def Ifd.read_entry (data : List Nat) (bo : ByteOrder)
    (ifd_offset current_entry : Nat) : Except TiffError Entry :=
  let pos := ifd_offset + 2 + current_entry * 12
  match readU16 bo data pos with
  | none => .error (.UnexpectedEndOfStream "when reading TIFF IFD entry tag")
  | some tag =>
    match readU16 bo data (pos + 2) with
    | none => .error (.UnexpectedEndOfStream "when reading TIFF IFD entry type")
    | some code =>
      match readU32 bo data (pos + 4) with
      | none => .error (.UnexpectedEndOfStream "when reading TIFF IFD entry data count")
      | some count =>
        match readU32 bo data (pos + 8) with
        | none => .error (.UnexpectedEndOfStream "when reading TIFF IFD entry data offset")
        | some offset =>
          .ok ⟨tag, EntryType.fromU16 code, count, offset⟩

/-- `entry_types::nbyte`: byte at logical position `n` (0 = most significant)
of a 4-byte word: `(s >> 8*(3-n)) & 0xFF`.  The source asserts `n <= 3`; all
call sites guarantee it. -/
def nbyte (s n : Nat) : Nat :=
  (s >>> (8 * (3 - n))) % 256

/-- A representation descriptor (`EntryTypeRepr` trait): the canonical entry
type, the decode-one routine (stream, position, byte order) → (bytes
consumed, value), and the decode-from-embedded routine (word, index, count).
A `none` from `read_from` is a short read. -/
structure EntryTypeRepr (α : Type) where
  entryType : EntryType
  read_from : ByteOrder → List Nat → Nat → Option (Nat × α)
  read_from_u32 : Nat → Nat → Nat → Option α

/-- `read_many_from` (the trait's default method): decode `n` values
sequentially starting at `pos`, advancing by the bytes consumed; the first
failure fails the whole read (the partially filled target is discarded by the
caller). -/
def readManyFrom {α : Type} (T : EntryTypeRepr α) (bo : ByteOrder)
    (data : List Nat) : Nat → Nat → Option (List α)
  | _, 0 => some []
  | pos, Nat.succ m =>
    match T.read_from bo data pos with
    | none => none
    | some (k, v) =>
      match readManyFrom T bo data (pos + k) m with
      | none => none
      | some rest => some (v :: rest)

/-- `entry_types::Ascii::read_from` helper: scan bytes from the head of the
list up to (and consuming) the first zero byte; `none` means the stream ended
before a terminator. -/
def asciiScan : List Nat → Option (List Nat)
  | [] => none
  | b :: rest => if b = 0 then some [] else (asciiScan rest).map (b :: ·)

/-- Build a string from raw bytes the way the source does (`b as char` /
`from_utf8_unchecked`; identical for the ASCII range exercised here). -/
def bytesToString (l : List Nat) : String :=
  ⟨l.map Char.ofNat⟩

/-- `find_substrings` inside `entry_types::Ascii::read_from_u32`: collect the
(start, end-exclusive) index pairs of zero-terminated runs. `p` is the start
of the current run and `i` the index of the head of the remaining list. -/
def findSubstringsAux : List Nat → Nat → Nat → List (Nat × Nat)
  | [], _, _ => []
  | b :: rest, p, i =>
    if b = 0 then (p, i) :: findSubstringsAux rest (i + 1) (i + 1)
    else findSubstringsAux rest p (i + 1)

/-- `find_substrings` applied from the start of a byte list. -/
def findSubstrings (s : List Nat) : List (Nat × Nat) :=
  findSubstringsAux s 0 0

namespace entry_types

/-- `entry_types::Byte`. -/
def Byte : EntryTypeRepr Nat where
  entryType := .Byte
  read_from := fun _ data pos => (readU8 data pos).map (fun b => (1, b))
  read_from_u32 := fun s n c =>
    if n ≥ c ∨ n ≥ 4 then none else some (nbyte s n)

/-- `entry_types::Ascii`: decode-one scans to a null terminator and reports
`len + 1` bytes consumed; decode-from-embedded recovers the 4 bytes of the
word, takes the first `count` of them, splits them at zero bytes and returns
the `n`-th substring found (extracted from the full 4-byte array). -/
def Ascii : EntryTypeRepr String where
  entryType := .Ascii
  read_from := fun _ data pos =>
    (asciiScan (data.drop pos)).map (fun bs => (bs.length + 1, bytesToString bs))
  read_from_u32 := fun s n c =>
    if n ≥ c ∨ n ≥ 4 then none
    else
      let bs := [nbyte s 0, nbyte s 1, nbyte s 2, nbyte s 3]
      ((findSubstrings (bs.take c))[n]?).map
        (fun pe => bytesToString ((bs.drop pe.1).take (pe.2 - pe.1)))

/-- `entry_types::Short`. -/
def Short : EntryTypeRepr Nat where
  entryType := .Short
  read_from := fun bo data pos => (readU16 bo data pos).map (fun v => (2, v))
  read_from_u32 := fun s n c =>
    if n ≥ c ∨ n ≥ 2 then none
    else some (nbyte s (2 * n + 1) * 256 + nbyte s (2 * n))

/-- `entry_types::Long`: note the embedded decode yields a value only at
index 1 (`if n != 1`), unlike `SignedLong`/`Float` which use index 0. -/
def Long : EntryTypeRepr Nat where
  entryType := .Long
  read_from := fun bo data pos => (readU32 bo data pos).map (fun v => (4, v))
  read_from_u32 := fun s n _ =>
    if n ≠ 1 then none
    else some (nbyte s 3 * 16777216 + nbyte s 2 * 65536 + nbyte s 1 * 256 + nbyte s 0)

/-- `entry_types::Rational`: two u32 reads, 8 bytes consumed; never embeds. -/
def Rational : EntryTypeRepr (Nat × Nat) where
  entryType := .Rational
  read_from := fun bo data pos =>
    match readU32 bo data pos, readU32 bo data (pos + 4) with
    | some n, some d => some (8, (n, d))
    | _, _ => none
  read_from_u32 := fun _ _ _ => none

/-- `entry_types::SignedByte`. -/
def SignedByte : EntryTypeRepr Int where
  entryType := .SignedByte
  read_from := fun _ data pos => (readU8 data pos).map (fun b => (1, toSigned 8 b))
  read_from_u32 := fun s n c =>
    if n ≥ c ∨ n ≥ 4 then none else some (toSigned 8 (nbyte s n))

/-- `entry_types::Undefined`. -/
def Undefined : EntryTypeRepr Nat where
  entryType := .Undefined
  read_from := fun _ data pos => (readU8 data pos).map (fun b => (1, b))
  read_from_u32 := fun s n c =>
    if n ≥ c ∨ n ≥ 4 then none else some (nbyte s n)

/-- `entry_types::SignedShort`. -/
def SignedShort : EntryTypeRepr Int where
  entryType := .SignedShort
  read_from := fun bo data pos =>
    (readU16 bo data pos).map (fun v => (2, toSigned 16 v))
  read_from_u32 := fun s n c =>
    if n ≥ c ∨ n ≥ 2 then none
    else some (toSigned 16 (nbyte s (2 * n + 1) * 256 + nbyte s (2 * n)))

/-- `entry_types::SignedLong`: embedded decode only at index 0. -/
def SignedLong : EntryTypeRepr Int where
  entryType := .SignedLong
  read_from := fun bo data pos =>
    (readU32 bo data pos).map (fun v => (4, toSigned 32 v))
  read_from_u32 := fun s n _ =>
    if 1 ≤ n then none
    else some (toSigned 32
      (nbyte s 3 * 16777216 + nbyte s 2 * 65536 + nbyte s 1 * 256 + nbyte s 0))

/-- `entry_types::SignedRational`: two i32 reads (8 bytes consumed) although
the declared `EntryType::size` is 4; the embedded decode never yields. -/
def SignedRational : EntryTypeRepr (Int × Int) where
  entryType := .SignedRational
  read_from := fun bo data pos =>
    match readU32 bo data pos, readU32 bo data (pos + 4) with
    | some n, some d => some (8, (toSigned 32 n, toSigned 32 d))
    | _, _ => none
  read_from_u32 := fun _ _ _ => none

/-- `entry_types::Float`: values are carried as IEEE-754 bit patterns; the
embedded decode (a bit transmute in the source) is the identity on bits and
yields only at index 0. -/
def Float : EntryTypeRepr Nat where
  entryType := .Float
  read_from := fun bo data pos => (readU32 bo data pos).map (fun v => (4, v))
  read_from_u32 := fun s n _ => if 1 ≤ n then none else some s

/-- `entry_types::Double`: bit patterns as `Nat`; never embeds. -/
def Double : EntryTypeRepr Nat where
  entryType := .Double
  read_from := fun bo data pos => (readU64 bo data pos).map (fun v => (8, v))
  read_from_u32 := fun _ _ _ => none

end entry_types

/-- The shape of an `EntryValues` iterator as seeded by `Entry::values`:
`Embedded` holds (current index, count, the 4-byte data word); `Referenced`
holds (current index, count, next absolute offset). -/
inductive EntryValues where
  | Embedded (current count data : Nat)
  | Referenced (current count next_offset : Nat)
deriving DecidableEq, Repr

/-- `Entry::values`: `none` on a representation/entry type mismatch or a type
with no declared size; otherwise classify by the u32 product
`size * count` (wrapping modulo 2^32): embedded iff it is ≤ 4. -/
def Entry.values {α : Type} (T : EntryTypeRepr α) (e : Entry) :
    Option EntryValues :=
  if e.entry_type = T.entryType then
    match T.entryType.size with
    | some sz =>
      if (sz * e.count) % 4294967296 ≤ 4 then
        some (.Embedded 0 e.count e.offset)
      else
        some (.Referenced 0 e.count e.offset)
    | none => none
  else none

/-- Draining the `Embedded` iterator (`EmbeddedValues::read_value` driven by
`collect`): pull indices 0,1,… while `current < count` and the embedded
decode yields a value; the first `none` ends the sequence.  The fuel argument
(`count - current` at the start) makes the recursion structural. -/
def embeddedDrainAux {α : Type} (T : EntryTypeRepr α) (w cnt : Nat) :
    Nat → Nat → List α
  | _, 0 => []
  | cur, Nat.succ fuel =>
    if cnt ≤ cur then []
    else
      match T.read_from_u32 w cur cnt with
      | none => []
      | some v => v :: embeddedDrainAux T w cnt (cur + 1) fuel

/-- Full drain of an embedded value sequence seeded with word `w` and
count `cnt`. -/
def embeddedDrain {α : Type} (T : EntryTypeRepr α) (w cnt : Nat) : List α :=
  embeddedDrainAux T w cnt 0 cnt

/-- `Entry::all_values`: same gating as `values`; the embedded branch drains
the lazy sequence (which never errors), the referenced branch seeks once to
`e.offset` and decodes `count` elements via `read_many_from`, surfacing the
first error and discarding any partial result. -/
def Entry.all_values {α : Type} (T : EntryTypeRepr α) (bo : ByteOrder)
    (data : List Nat) (e : Entry) : Option (Except TiffError (List α)) :=
  if e.entry_type = T.entryType then
    match T.entryType.size with
    | some sz =>
      if (sz * e.count) % 4294967296 ≤ 4 then
        some (.ok (embeddedDrain T e.offset e.count))
      else
        match readManyFrom T bo data e.offset e.count with
        | some l => some (.ok l)
        | none => some (.error (.UnexpectedEndOfStream "when reading TIFF IFD entry values"))
    | none => none
  else none

/-- Is an `Except` result an `InvalidFormat` error? -/
def isInvalidFormatErr {α : Type} : Except TiffError α → Bool
  | .error (.InvalidFormat _) => true
  | _ => false

/-- The full iterator state of the source's `Ifd` struct: besides the offset
and total entry count (the `Ifd` view above, yielded by the chain walker) it
carries the iteration cursor `current_entry`. -/
structure IfdIter where
  ifd_offset : Nat
  current_entry : Nat
  total_entries : Nat
deriving DecidableEq, Repr

/-- The entries iterator as constructed by `Ifds::read_ifd`
(`current_entry: 0`). -/
def Ifd.iter (i : Ifd) : IfdIter :=
  ⟨i.ifd_offset, 0, i.total_entries⟩

/-- `<Ifd as Iterator>::next`: yield nothing once `current_entry` equals
`total_entries`, otherwise run `read_entry`; `current_entry` is incremented
only after all four reads succeed, so on an error the iterator state is
unchanged. -/
def IfdIter.next (data : List Nat) (bo : ByteOrder) (it : IfdIter) :
    Option (Except TiffError Entry) × IfdIter :=
  if it.current_entry = it.total_entries then (none, it)
  else
    match Ifd.read_entry data bo it.ifd_offset it.current_entry with
    | .ok en => (some (.ok en), ⟨it.ifd_offset, it.current_entry + 1, it.total_entries⟩)
    | .error er => (some (.error er), it)

/-- `EntryValues::read_value`: one step of the value sequence.  The Embedded
arm (`EmbeddedValues::read_value`) never errors: it ends at `count`, and
otherwise returns the embedded decode's result while advancing `current`
(also when that result is `none`).  The Referenced arm
(`ReferencedValues::read_value`) ends at `count`, otherwise seeks to
`next_offset`, decodes one element, and only on success advances `current`
and `next_offset` (a u32, hence the wrap) by the bytes consumed. -/
def EntryValues.read_value {α : Type} (T : EntryTypeRepr α) (bo : ByteOrder)
    (data : List Nat) : EntryValues → Except TiffError (Option α × EntryValues)
  | .Embedded cur cnt w =>
    if cnt ≤ cur then .ok (none, .Embedded cur cnt w)
    else .ok (T.read_from_u32 w cur cnt, .Embedded (cur + 1) cnt w)
  | .Referenced cur cnt off =>
    if cnt ≤ cur then .ok (none, .Referenced cur cnt off)
    else
      match T.read_from bo data off with
      | none => .error (.UnexpectedEndOfStream "when reading TIFF entry value")
      | some (k, v) => .ok (some v, .Referenced (cur + 1) cnt ((off + k) % 4294967296))

/-- `<EntryValues as Iterator>::next`: a pull of the value sequence; on an
error none of the iterator's fields were written, so the state is
unchanged. -/
def EntryValues.next {α : Type} (T : EntryTypeRepr α) (bo : ByteOrder)
    (data : List Nat) (vs : EntryValues) :
    Option (Except TiffError α) × EntryValues :=
  match EntryValues.read_value T bo data vs with
  | .ok (none, vs') => (none, vs')
  | .ok (some v, vs') => (some (.ok v), vs')
  | .error e => (some (.error e), vs)

/-- Claim C2 (confirmed): one pull of the IFD iterator.  If the stored
next-IFD offset is 0 the pull yields nothing and leaves the state unchanged
(so the sequence is terminally exhausted); otherwise the walker reads a
16-bit entry count at that offset, fails with `InvalidFormat` if it is zero,
otherwise reads the new 16-bit chain pointer at
`current_offset + 2 + entry_count * 12`, stores it for the following pull,
and yields an `Ifd` whose offset is the current offset and whose entry count
is the value read. -/
theorem ifds_next_step (data : List Nat) (st : LazyIfds) :
    (st.next_ifd_offset = 0 → Ifds.next data st = (none, st))
    ∧ (st.next_ifd_offset ≠ 0 →
        (readU16 st.byte_order data st.next_ifd_offset = some 0 →
          Ifds.next data st =
            (some (.error (.InvalidFormat "number of entries in an IFD is zero")), st))
        ∧ (∀ cnt, readU16 st.byte_order data st.next_ifd_offset = some cnt → cnt ≠ 0 →
            ∀ nxt, readU16 st.byte_order data (st.next_ifd_offset + 2 + cnt * 12) = some nxt →
              Ifds.next data st =
                (some (.ok ⟨st.next_ifd_offset, cnt⟩), ⟨st.byte_order, nxt⟩))) := by
  refine ⟨?_, ?_⟩
  · intro h0
    simp [Ifds.next, Ifds.read_ifd, h0]
  · intro h0
    refine ⟨?_, ?_⟩
    · intro hz
      simp [Ifds.next, Ifds.read_ifd, h0, hz]
    · intro cnt hc hcnz nxt hn
      simp [Ifds.next, Ifds.read_ifd, h0, hc, hcnz, hn]

/-- Witness for C2: on a one-IFD little-endian document the first pull yields
the IFD at offset 4 with one entry and stores chain pointer 0; the next pull
then yields nothing. -/
theorem ifds_next_step_witness :
    Ifds.next [0x49, 0x49, 42, 0, 1, 0, 0, 0, 0, 0, 0, 0, 0, 0, 0, 0, 0, 0, 0, 0]
        ⟨.Little, 4⟩
      = (some (.ok ⟨4, 1⟩), ⟨.Little, 0⟩)
    ∧ Ifds.next [0x49, 0x49, 42, 0, 1, 0, 0, 0, 0, 0, 0, 0, 0, 0, 0, 0, 0, 0, 0, 0]
        ⟨.Little, 0⟩
      = (none, ⟨.Little, 0⟩) := by
  constructor
  · exact ((ifds_next_step _ ⟨.Little, 4⟩).2 (by decide)).2 1 (by decide) (by decide) 0 (by decide)
  · exact (ifds_next_step _ ⟨.Little, 0⟩).1 rfl

/-- Claim C7 (counterexample): with the entry-count field at the first IFD
location equal to 0, the first pull of the IFD sequence yields `InvalidFormat`
and the second pull yields the same error element again — not "no further
elements" as claimed. -/
theorem ifds_error_second_pull :
    Ifds.next [0x49, 0x49, 42, 0, 0, 0] ⟨.Little, 4⟩
      = (some (.error (.InvalidFormat "number of entries in an IFD is zero")), ⟨.Little, 4⟩)
    ∧ (Ifds.next [0x49, 0x49, 42, 0, 0, 0]
         (Ifds.next [0x49, 0x49, 42, 0, 0, 0] ⟨.Little, 4⟩).2).1
      = some (.error (.InvalidFormat "number of entries in an IFD is zero")) :=
  ⟨rfl, rfl⟩

/-- Claim C7 (corrected): for every lazy sequence — the IFD chain, the entry
sequence of an IFD, and the value sequence of an entry (whose Embedded arm
never errors at all) — a failed pull leaves the sequence's cursor state
unchanged, so the following pull repeats the very same error; in particular
no successful pull ever follows a failure, but the sequence is not exhausted
after an error. -/
theorem lazy_sequence_error_repeats :
    (∀ (data : List Nat) (st st' : LazyIfds) (e : TiffError),
        Ifds.next data st = (some (.error e), st') →
        st' = st ∧ Ifds.next data st' = (some (.error e), st'))
    ∧ (∀ (data : List Nat) (bo : ByteOrder) (it it' : IfdIter) (e : TiffError),
        IfdIter.next data bo it = (some (.error e), it') →
        it' = it ∧ IfdIter.next data bo it' = (some (.error e), it'))
    ∧ (∀ (α : Type) (T : EntryTypeRepr α) (bo : ByteOrder) (data : List Nat)
        (vs vs' : EntryValues) (e : TiffError),
        EntryValues.next T bo data vs = (some (.error e), vs') →
        vs' = vs ∧ EntryValues.next T bo data vs' = (some (.error e), vs')) := by
  refine ⟨?_, ?_, ?_⟩
  · intro data st st' e h
    have h' := h
    unfold Ifds.next at h'
    cases hr : Ifds.read_ifd data st with
    | ok v =>
      obtain ⟨o, st2⟩ := v
      rw [hr] at h'
      cases o <;> simp at h'
    | error e2 =>
      rw [hr] at h'
      simp at h'
      obtain ⟨he, hst⟩ := h'
      subst he
      subst hst
      refine ⟨rfl, ?_⟩
      unfold Ifds.next
      rw [hr]
  · intro data bo it it' e h
    have h' := h
    unfold IfdIter.next at h'
    by_cases hc : it.current_entry = it.total_entries
    · rw [if_pos hc] at h'
      simp at h'
    · rw [if_neg hc] at h'
      cases hr : Ifd.read_entry data bo it.ifd_offset it.current_entry with
      | ok en =>
        rw [hr] at h'
        simp at h'
      | error er =>
        rw [hr] at h'
        simp at h'
        obtain ⟨he, hst⟩ := h'
        subst he
        subst hst
        refine ⟨rfl, ?_⟩
        unfold IfdIter.next
        rw [if_neg hc, hr]
  · intro α T bo data vs vs' e h
    cases vs with
    | Embedded cur cnt w =>
      exfalso
      by_cases hc : cnt ≤ cur
      · simp [EntryValues.next, EntryValues.read_value, hc] at h
      · cases hu : T.read_from_u32 w cur cnt <;>
          simp [EntryValues.next, EntryValues.read_value, hc, hu] at h
    | Referenced cur cnt off =>
      by_cases hc : cnt ≤ cur
      · exfalso
        simp [EntryValues.next, EntryValues.read_value, hc] at h
      · cases hr : T.read_from bo data off with
        | none =>
          simp [EntryValues.next, EntryValues.read_value, hc, hr] at h
          obtain ⟨he, hst⟩ := h
          subst he
          subst hst
          refine ⟨rfl, ?_⟩
          simp [EntryValues.next, EntryValues.read_value, hc, hr]
        | some kv =>
          exfalso
          obtain ⟨k, v⟩ := kv
          simp [EntryValues.next, EntryValues.read_value, hc, hr] at h

/-- Witness for C7: the repeat behavior instantiated on all three sequence
kinds — the zero-entry-count document for the IFD chain, an entry record
truncated before its tag for the entry sequence, and a referenced Long value
on an empty stream for the value sequence. -/
theorem lazy_sequence_error_repeats_witness :
    ((⟨.Little, 4⟩ : LazyIfds) = ⟨.Little, 4⟩
      ∧ Ifds.next [0x49, 0x49, 42, 0, 0, 0] ⟨.Little, 4⟩
        = (some (.error (.InvalidFormat "number of entries in an IFD is zero")), ⟨.Little, 4⟩))
    ∧ ((⟨4, 0, 1⟩ : IfdIter) = ⟨4, 0, 1⟩
      ∧ IfdIter.next [0x49, 0x49, 42, 0, 1, 0] .Little ⟨4, 0, 1⟩
        = (some (.error (.UnexpectedEndOfStream "when reading TIFF IFD entry tag")), ⟨4, 0, 1⟩))
    ∧ ((EntryValues.Referenced 0 1 0) = (EntryValues.Referenced 0 1 0)
      ∧ EntryValues.next entry_types.Long .Little [] (.Referenced 0 1 0)
        = (some (.error (.UnexpectedEndOfStream "when reading TIFF entry value")),
           .Referenced 0 1 0)) :=
  ⟨lazy_sequence_error_repeats.1 [0x49, 0x49, 42, 0, 0, 0] ⟨.Little, 4⟩ ⟨.Little, 4⟩
      (.InvalidFormat "number of entries in an IFD is zero") rfl,
   lazy_sequence_error_repeats.2.1 [0x49, 0x49, 42, 0, 1, 0] .Little ⟨4, 0, 1⟩ ⟨4, 0, 1⟩
      (.UnexpectedEndOfStream "when reading TIFF IFD entry tag") rfl,
   lazy_sequence_error_repeats.2.2 Nat entry_types.Long .Little [] (.Referenced 0 1 0)
      (.Referenced 0 1 0) (.UnexpectedEndOfStream "when reading TIFF entry value") rfl⟩

/-- Claim C3 (code_bug): `Long`'s decode-from-embedded uses `n != 1` where
the claimed (and, per the trait documentation and the parallel `SignedLong`
and `Float` descriptors, intended) condition is `n >= 1`.  At the failing
input (word `0x01020304`, element index 0, count 1) it yields no value, while
at index 1 — which violates the documented `n < count` requirement — it
yields one; through the embedded iterator a Long entry therefore never
produces any value. -/
theorem long_embedded_decode_at_failing_input :
    entry_types.Long.read_from_u32 0x01020304 0 1 = none
    ∧ entry_types.Long.read_from_u32 0x01020304 1 1 = some 0x04030201
    ∧ embeddedDrain entry_types.Long 0x01020304 1 = [] :=
  ⟨rfl, rfl, rfl⟩

/-- Claim C10 (confirmed): the embedded/referenced classification multiplies
`size * count` in 32-bit unsigned arithmetic; for a Double entry (size 8)
with count 2^29 the product wraps to 0 ≤ 4, so an Embedded sequence is
returned although the true byte total 2^32 exceeds 4 (the data is in fact
referenced). -/
theorem values_product_wraps_to_embedded :
    (8 * 536870912) % 4294967296 = 0
    ∧ Entry.values entry_types.Double ⟨0, .Double, 536870912, 123⟩
      = some (.Embedded 0 536870912 123)
    ∧ 4 < 8 * 536870912 :=
  ⟨rfl, rfl, by decide⟩

/-- Claim C1 (counterexample): a Long entry (size 4) with count 2^30 has a
true byte total 2^32 > 4, so the claim requires a Referenced sequence, but
the u32 product wraps to 0 and `values` returns the Embedded variant. -/
theorem values_embedded_product_wraps :
    Entry.values entry_types.Long ⟨0, .Long, 1073741824, 7⟩
      = some (.Embedded 0 1073741824 7)
    ∧ 4 < 4 * 1073741824 :=
  ⟨rfl, by decide⟩

/-- Claim C1 (corrected): `values` returns no sequence exactly on a
representation/entry-type mismatch or an entry type with no declared size;
otherwise it returns an Embedded sequence seeded with the entry's value field
and count exactly when `(size * count) mod 2^32 ≤ 4`, and a Referenced
sequence seeded with the value field as absolute offset and count exactly
when that wrapped product exceeds 4. -/
theorem values_classification {α : Type} (T : EntryTypeRepr α) (e : Entry) :
    (Entry.values T e = none ↔ e.entry_type ≠ T.entryType ∨ T.entryType.size = none)
    ∧ (∀ sz, e.entry_type = T.entryType → T.entryType.size = some sz →
        ((sz * e.count) % 4294967296 ≤ 4 →
          Entry.values T e = some (.Embedded 0 e.count e.offset))
        ∧ (4 < (sz * e.count) % 4294967296 →
          Entry.values T e = some (.Referenced 0 e.count e.offset))) := by
  refine ⟨?_, ?_⟩
  · by_cases h : e.entry_type = T.entryType
    · cases hs : T.entryType.size with
      | none => simp [Entry.values, h, hs]
      | some sz =>
        constructor
        · intro hnone
          exfalso
          by_cases hle : (sz * e.count) % 4294967296 ≤ 4
          · simp [Entry.values, h, hs, hle] at hnone
          · simp [Entry.values, h, hs, hle] at hnone
        · intro hor
          rcases hor with hne | hs0
          · exact absurd h hne
          · exact absurd hs0 (by simp [hs])
    · simp [Entry.values, h]
  · intro sz h hs
    constructor
    · intro hle
      simp [Entry.values, h, hs, hle]
    · intro hgt
      have hle : ¬ (sz * e.count) % 4294967296 ≤ 4 := by omega
      simp [Entry.values, h, hs, hle]

/-- Witness for C1: a Short entry with count 1 (product 2) is Embedded, with
count 3 (product 6) is Referenced, and a Long entry requested as Short yields
no sequence. -/
theorem values_classification_witness :
    Entry.values entry_types.Short ⟨0, .Short, 1, 100⟩ = some (.Embedded 0 1 100)
    ∧ Entry.values entry_types.Short ⟨0, .Short, 3, 50⟩ = some (.Referenced 0 3 50)
    ∧ Entry.values entry_types.Short ⟨0, .Long, 1, 0⟩ = none := by
  refine ⟨?_, ?_, ?_⟩
  · exact ((values_classification entry_types.Short ⟨0, .Short, 1, 100⟩).2 2 rfl rfl).1 (by decide)
  · exact ((values_classification entry_types.Short ⟨0, .Short, 3, 50⟩).2 2 rfl rfl).2 (by decide)
  · exact (values_classification entry_types.Short ⟨0, .Long, 1, 0⟩).1.mpr (Or.inl (by decide))

/-- Claim C4 (counterexample): on a stream with no header bytes at all,
opening fails — but with `UnexpectedEndOfStream`, not the claimed
`InvalidFormat`. -/
theorem ifds_open_short_stream_eof :
    TiffReader.ifds ([] : List Nat)
      = .error (.UnexpectedEndOfStream "while reading byte order mark")
    ∧ isInvalidFormatErr (TiffReader.ifds ([] : List Nat)) = false :=
  ⟨rfl, rfl⟩

/-- Claim C4 (corrected): opening succeeds exactly when the first two bytes
are "II" or "MM" and the following 16-bit value under that byte order equals
42, and on success the chain cursor of the returned state is the literal
stream position 4; a present-but-invalid byte-order mark or a wrong magic
fails with `InvalidFormat`, while a stream too short to hold the four header
bytes fails with `UnexpectedEndOfStream`. -/
theorem ifds_open_characterization (data : List Nat) :
    (∀ st, TiffReader.ifds data = .ok st →
        st.next_ifd_offset = 4
        ∧ ((data[0]? = some 0x49 ∧ data[1]? = some 0x49
              ∧ readU16 .Little data 2 = some 42 ∧ st.byte_order = .Little)
            ∨ (data[0]? = some 0x4D ∧ data[1]? = some 0x4D
              ∧ readU16 .Big data 2 = some 42 ∧ st.byte_order = .Big)))
    ∧ (data[0]? = some 0x49 → data[1]? = some 0x49 → readU16 .Little data 2 = some 42 →
        TiffReader.ifds data = .ok ⟨.Little, 4⟩)
    ∧ (data[0]? = some 0x4D → data[1]? = some 0x4D → readU16 .Big data 2 = some 42 →
        TiffReader.ifds data = .ok ⟨.Big, 4⟩)
    ∧ (∀ b0 b1, data[0]? = some b0 → data[1]? = some b1 →
        ¬(b0 = 0x49 ∧ b1 = 0x49) → ¬(b0 = 0x4D ∧ b1 = 0x4D) →
        TiffReader.ifds data = .error (.InvalidFormat "invalid TIFF BOM"))
    ∧ (∀ m, ((data[0]? = some 0x49 ∧ data[1]? = some 0x49 ∧ readU16 .Little data 2 = some m)
          ∨ (data[0]? = some 0x4D ∧ data[1]? = some 0x4D ∧ readU16 .Big data 2 = some m)) →
        m ≠ 42 →
        TiffReader.ifds data = .error (.InvalidFormat "invalid TIFF magic number"))
    ∧ (((data[0]? = some 0x49 ∧ data[1]? = some 0x49 ∧ readU16 .Little data 2 = none)
          ∨ (data[0]? = some 0x4D ∧ data[1]? = some 0x4D ∧ readU16 .Big data 2 = none)) →
        TiffReader.ifds data = .error (.UnexpectedEndOfStream "when reading TIFF magic number"))
    ∧ ((data[0]? = none ∨ data[1]? = none) →
        TiffReader.ifds data = .error (.UnexpectedEndOfStream "while reading byte order mark")) := by
  refine ⟨?_, ?_, ?_, ?_, ?_, ?_, ?_⟩
  · intro st hok
    unfold TiffReader.ifds at hok
    cases h0 : data[0]? with
    | none => rw [h0] at hok; simp at hok
    | some b0 =>
      cases h1 : data[1]? with
      | none => rw [h0, h1] at hok; simp at hok
      | some b1 =>
        rw [h0, h1] at hok
        dsimp only at hok
        by_cases hII : b0 = 0x49 ∧ b1 = 0x49
        · rw [if_pos hII] at hok
          cases hm : readU16 .Little data 2 with
          | none => rw [hm] at hok; simp at hok
          | some m =>
            rw [hm] at hok
            dsimp only at hok
            by_cases h42 : m = 42
            · rw [if_pos h42] at hok
              simp at hok
              subst hok
              exact ⟨rfl, Or.inl ⟨congrArg some hII.1, congrArg some hII.2,
                congrArg some h42, rfl⟩⟩
            · rw [if_neg h42] at hok; simp at hok
        · rw [if_neg hII] at hok
          by_cases hMM : b0 = 0x4D ∧ b1 = 0x4D
          · rw [if_pos hMM] at hok
            cases hm : readU16 .Big data 2 with
            | none => rw [hm] at hok; simp at hok
            | some m =>
              rw [hm] at hok
              dsimp only at hok
              by_cases h42 : m = 42
              · rw [if_pos h42] at hok
                simp at hok
                subst hok
                exact ⟨rfl, Or.inr ⟨congrArg some hMM.1, congrArg some hMM.2,
                  congrArg some h42, rfl⟩⟩
              · rw [if_neg h42] at hok; simp at hok
          · rw [if_neg hMM] at hok; simp at hok
  · intro h0 h1 hm
    simp [TiffReader.ifds, h0, h1, hm]
  · intro h0 h1 hm
    simp [TiffReader.ifds, h0, h1, hm]
  · intro b0 b1 h0 h1 hnII hnMM
    simp [TiffReader.ifds, h0, h1, hnII, hnMM]
  · intro m hor h42
    rcases hor with ⟨h0, h1, hm⟩ | ⟨h0, h1, hm⟩ <;>
      simp [TiffReader.ifds, h0, h1, hm, h42]
  · intro hor
    rcases hor with ⟨h0, h1, hm⟩ | ⟨h0, h1, hm⟩ <;>
      simp [TiffReader.ifds, h0, h1, hm]
  · intro hor
    rcases hor with h0 | h1
    · cases hb : data[1]? <;> simp [TiffReader.ifds, h0, hb]
    · cases ha : data[0]? <;> simp [TiffReader.ifds, ha, h1]

/-- Witness for C4: the little-endian header opens with the cursor at 4, and
a present-but-invalid byte-order mark is an `InvalidFormat` failure. -/
theorem ifds_open_characterization_witness :
    TiffReader.ifds [0x49, 0x49, 42, 0] = .ok ⟨.Little, 4⟩
    ∧ TiffReader.ifds [0x58, 0x58, 42, 0] = .error (.InvalidFormat "invalid TIFF BOM") := by
  constructor
  · exact (ifds_open_characterization [0x49, 0x49, 42, 0]).2.1 rfl rfl (by decide)
  · exact (ifds_open_characterization [0x58, 0x58, 42, 0]).2.2.2.1 0x58 0x58 rfl rfl
      (by decide) (by decide)

/-- Claim C5 (counterexample): an Ascii entry with count 2 and embedded word
`0x61006200` (recovered bytes `['a', 0, 'b', 0]`) gets an Embedded sequence,
but draining it yields only `["a"]`, not the claimed `["a", "b"]`: the
decode slices the recovered bytes to the first `count` of them. -/
theorem ascii_embedded_count_two :
    Entry.values entry_types.Ascii ⟨0, .Ascii, 2, 0x61006200⟩
      = some (.Embedded 0 2 0x61006200)
    ∧ embeddedDrain entry_types.Ascii 0x61006200 2 = ["a"] :=
  ⟨rfl, rfl⟩

/-- Claim C5 (corrected): the Ascii embedded decode takes the first `count`
of the 4 recovered bytes (count is the entry's byte count, terminators
included), splits them at null bytes and returns the n-th substring found,
with no value when `n` is at or beyond `count` or 4; for the word with bytes
`['a', 0, 'b', 0]` the values sequence yields `["a", "b"]` when count is 4,
and only `["a"]` when count is 2. -/
theorem ascii_embedded_decode :
    (∀ s n c, n ≥ c ∨ n ≥ 4 → entry_types.Ascii.read_from_u32 s n c = none)
    ∧ Entry.values entry_types.Ascii ⟨0, .Ascii, 4, 0x61006200⟩
      = some (.Embedded 0 4 0x61006200)
    ∧ embeddedDrain entry_types.Ascii 0x61006200 4 = ["a", "b"]
    ∧ embeddedDrain entry_types.Ascii 0x61006200 2 = ["a"] := by
  refine ⟨?_, rfl, rfl, rfl⟩
  intro s n c h
  show (if n ≥ c ∨ n ≥ 4 then none else _) = none
  exact if_pos h

/-- Witness for C5: index 4 is rejected. -/
theorem ascii_embedded_decode_witness :
    entry_types.Ascii.read_from_u32 5 4 2 = none :=
  ascii_embedded_decode.1 5 4 2 (Or.inl (by decide))

/-- Claim C6 (confirmed): SignedRational's declared per-element size is 4,
its decode-one routine reads two signed 32-bit fields and reports 8 bytes
consumed, its decode-from-embedded routine yields no value for every input,
and the embedded/referenced threshold for SignedRational entries is computed
with size 4 (so a count-1 entry is classified Embedded even though its true
data is 8 bytes). -/
theorem signed_rational_asymmetry :
    EntryType.SignedRational.size = some 4
    ∧ (∀ s n c, entry_types.SignedRational.read_from_u32 s n c = none)
    ∧ (∀ bo data pos k v, entry_types.SignedRational.read_from bo data pos = some (k, v) → k = 8)
    ∧ (∀ e : Entry, e.entry_type = .SignedRational →
        (Entry.values entry_types.SignedRational e = some (.Embedded 0 e.count e.offset)
          ↔ (4 * e.count) % 4294967296 ≤ 4)) := by
  refine ⟨rfl, fun s n c => rfl, ?_, ?_⟩
  · intro bo data pos k v h
    unfold entry_types.SignedRational at h
    dsimp only at h
    cases ha : readU32 bo data pos <;> rw [ha] at h
    · simp at h
    · cases hb : readU32 bo data (pos + 4) <;> rw [hb] at h
      · simp at h
      · simp at h
        exact h.1.symm
  · intro e he
    constructor
    · intro hv
      by_contra hc
      have hr : Entry.values entry_types.SignedRational e
          = some (.Referenced 0 e.count e.offset) := by
        simp [Entry.values, entry_types.SignedRational, EntryType.size, he, hc]
      rw [hr] at hv
      simp at hv
    · intro h4
      simp [Entry.values, entry_types.SignedRational, EntryType.size, he, h4]

/-- Witness for C6: concrete instances — the embedded decode yields nothing,
an 8-byte stream decodes one SignedRational consuming 8 bytes, and a count-1
SignedRational entry is classified Embedded. -/
theorem signed_rational_asymmetry_witness :
    entry_types.SignedRational.read_from_u32 7 0 1 = none
    ∧ (8 : Nat) = 8
    ∧ Entry.values entry_types.SignedRational ⟨0, .SignedRational, 1, 77⟩
      = some (.Embedded 0 1 77) := by
  refine ⟨signed_rational_asymmetry.2.1 7 0 1, ?_, ?_⟩
  · exact signed_rational_asymmetry.2.2.1 .Little [0, 0, 0, 0, 0, 0, 0, 0] 0 8 (0, 0) (by decide)
  · exact (signed_rational_asymmetry.2.2.2 ⟨0, .SignedRational, 1, 77⟩ rfl).mpr (by decide)

/-- Claim C8 (counterexample): for an embedded Ascii entry with count 4 whose
word holds two null-terminated substrings, `all_values` returns a successful
collection of only 2 elements — fewer than `count` — so the operation does
not always return "a complete collection containing all count elements". -/
theorem all_values_embedded_partial :
    Entry.all_values entry_types.Ascii .Little [] ⟨0, .Ascii, 4, 0x61006200⟩
      = some (.ok ["a", "b"])
    ∧ (["a", "b"] : List String).length = 2
    ∧ (2 : Nat) ≠ 4 :=
  ⟨rfl, rfl, by decide⟩

/-- Claim C8 (corrected): for the Referenced case, `all_values` seeks once to
the entry's offset and decodes `count` elements in a loop — a successful
result contains exactly `count` elements in order, and any failure produces a
single error with every element decoded so far discarded; the Embedded case
instead drains the lazy sequence and may return fewer than `count` elements. -/
theorem all_values_referenced_complete :
    (∀ (α : Type) (T : EntryTypeRepr α) (bo : ByteOrder) (data : List Nat) (pos n : Nat)
        (l : List α), readManyFrom T bo data pos n = some l → l.length = n)
    ∧ (∀ (α : Type) (T : EntryTypeRepr α) (bo : ByteOrder) (data : List Nat) (e : Entry)
        (sz : Nat), e.entry_type = T.entryType → T.entryType.size = some sz →
        4 < (sz * e.count) % 4294967296 →
        Entry.all_values T bo data e =
          match readManyFrom T bo data e.offset e.count with
          | some l => some (.ok l)
          | none => some (.error (.UnexpectedEndOfStream "when reading TIFF IFD entry values"))) := by
  constructor
  · intro α T bo data pos n
    induction n generalizing pos with
    | zero =>
      intro l h
      unfold readManyFrom at h
      simp at h
      subst h
      rfl
    | succ m ih =>
      intro l h
      unfold readManyFrom at h
      cases hrf : T.read_from bo data pos with
      | none => rw [hrf] at h; simp at h
      | some kv =>
        obtain ⟨k, v⟩ := kv
        rw [hrf] at h
        dsimp only at h
        cases hrec : readManyFrom T bo data (pos + k) m with
        | none => rw [hrec] at h; simp at h
        | some rest =>
          rw [hrec] at h
          simp at h
          rw [← h]
          simp [ih (pos + k) rest hrec]
  · intro α T bo data e sz h1 h2 h3
    unfold Entry.all_values
    rw [if_pos h1, h2]
    dsimp only
    rw [if_neg (by omega : ¬ (sz * e.count) % 4294967296 ≤ 4)]

/-- Witness for C8: a referenced Long entry with count 2 decodes to exactly
two elements in order. -/
theorem all_values_referenced_complete_witness :
    ([1, 2] : List Nat).length = 2
    ∧ Entry.all_values entry_types.Long .Little [1, 0, 0, 0, 2, 0, 0, 0] ⟨0, .Long, 2, 0⟩
      = some (.ok [1, 2]) := by
  constructor
  · exact all_values_referenced_complete.1 Nat entry_types.Long .Little
      [1, 0, 0, 0, 2, 0, 0, 0] 0 2 [1, 2] (by decide)
  · have h := all_values_referenced_complete.2 Nat entry_types.Long .Little
      [1, 0, 0, 0, 2, 0, 0, 0] ⟨0, .Long, 2, 0⟩ 4 rfl rfl (by decide)
    rw [h]
    rfl

/-- Claim C9 (confirmed): reading the i-th directory entry of an IFD reads,
at `ifd.offset + 2 + i*12`, a u16 tag, a u16 type code, a u32 count and a u32
value field in order under the document byte order; type codes 1 through 12
map to the twelve known `EntryType` variants and every unrecognized code `c`
maps to `Unknown c` rather than producing an error. -/
theorem read_entry_layout :
    (∀ (data : List Nat) (bo : ByteOrder) (off i t c cnt v : Nat),
        readU16 bo data (off + 2 + i * 12) = some t →
        readU16 bo data (off + 2 + i * 12 + 2) = some c →
        readU32 bo data (off + 2 + i * 12 + 4) = some cnt →
        readU32 bo data (off + 2 + i * 12 + 8) = some v →
        Ifd.read_entry data bo off i = .ok ⟨t, EntryType.fromU16 c, cnt, v⟩)
    ∧ (∀ c, 13 ≤ c → EntryType.fromU16 c = .Unknown c)
    ∧ EntryType.fromU16 0 = .Unknown 0
    ∧ EntryType.fromU16 1 = .Byte ∧ EntryType.fromU16 2 = .Ascii
    ∧ EntryType.fromU16 3 = .Short ∧ EntryType.fromU16 4 = .Long
    ∧ EntryType.fromU16 5 = .Rational ∧ EntryType.fromU16 6 = .SignedByte
    ∧ EntryType.fromU16 7 = .Undefined ∧ EntryType.fromU16 8 = .SignedShort
    ∧ EntryType.fromU16 9 = .SignedLong ∧ EntryType.fromU16 10 = .SignedRational
    ∧ EntryType.fromU16 11 = .Float ∧ EntryType.fromU16 12 = .Double := by
  refine ⟨?_, ?_, rfl, rfl, rfl, rfl, rfl, rfl, rfl, rfl, rfl, rfl, rfl, rfl, rfl⟩
  · intro data bo off i t c cnt v ht hc hcnt hv
    simp [Ifd.read_entry, ht, hc, hcnt, hv]
  · intro c hc
    match c, hc with
    | (n + 13), _ => rfl

/-- Witness for C9: a concrete little-endian entry record decodes to tag 274,
type Short, count 1, value field 100, and the unlisted code 13 maps to
`Unknown 13`. -/
theorem read_entry_layout_witness :
    Ifd.read_entry [0, 0, 0x12, 0x01, 3, 0, 1, 0, 0, 0, 100, 0, 0, 0] .Little 0 0
      = .ok ⟨274, .Short, 1, 100⟩
    ∧ EntryType.fromU16 13 = .Unknown 13 := by
  constructor
  · exact read_entry_layout.1 [0, 0, 0x12, 0x01, 3, 0, 1, 0, 0, 0, 100, 0, 0, 0]
      .Little 0 0 274 3 1 100 (by decide) (by decide) (by decide) (by decide)
  · exact read_entry_layout.2.1 13 (by decide)

end ImmetaTiff
